import Mathlib

/-!
Shallow embedding of the connection-acceptance layer of the Rocket HTTP core
(`core/http/src/listener.rs` and `core/http/src/tls/listener.rs`), together
with theorems settling the specification claims about it.

Modelling conventions:
* `Poll α` mirrors `std::task::Poll`; a `Pending` result registers a waker,
  which is outside the model.
* Async inner objects (the wrapped listener of `Incoming`, the rustls
  handshake future, the established TLS stream) are modelled by the sequence
  of results their polls yield: a listener is represented by the list of
  results its successive `poll_accept` calls return within one outer poll,
  and the handshake future by the single result its poll yields.
* Time is a `Nat` of milliseconds. `tokio::time::sleep(d)` armed at instant
  `now` is stored as its deadline `now + d`; polling it returns `Pending`
  exactly while the current instant is strictly before the deadline.
* Byte strings (ALPN identifiers) are modelled as `String`, DER certificate
  blobs as lists of bytes (`List Nat`).
-/

namespace RocketHttp

/-- Mirrors `std::task::Poll`. -/
inductive Poll (α : Type) where
  | ready (a : α)
  | pending
deriving DecidableEq, Repr

/-- Mirrors `Poll::map` applied to the ready value. -/
def Poll.map {α β : Type} (f : α → β) : Poll α → Poll β
  | .ready a => .ready (f a)
  | .pending => .pending

/-- The `std::io::ErrorKind` values this layer inspects, with a catch-all
`other` carrying an abstract code for every remaining kind. -/
inductive IoErrorKind where
  | connectionRefused
  | connectionAborted
  | connectionReset
  | wouldBlock
  | other (code : Nat)
deriving DecidableEq, Repr

/-- Mirrors `std::io::Error`, reduced to the kind this layer inspects. -/
structure IoError where
  kind : IoErrorKind
deriving DecidableEq, Repr

/-- Mirrors `BindableAddr`: a network address or a filesystem path. -/
inductive BindableAddr where
  | tcp (addr : String)
  | unix (path : String)
deriving DecidableEq, Repr

/-- Raw DER-encoded X.509 certificate bytes (`CertificateData`). -/
abbrev CertificateData := List Nat

/-- Value of the fill-once cell `Certificates(Arc<Storage<Vec<CertificateData>>>)`:
`none` while the cell has not been set, `some chain` afterwards. -/
structure Certificates where
  cell : Option (List CertificateData)
deriving DecidableEq, Repr

/-- Mirrors `Certificates::default()`: an unfilled cell. -/
def Certificates.default : Certificates := ⟨none⟩

/-- Mirrors `Certificates::set`, i.e. `state::Storage::set`: only the first
call stores the data; later calls leave the cell unchanged. -/
def Certificates.set (c : Certificates) (data : List CertificateData) : Certificates :=
  match c.cell with
  | some v => ⟨some v⟩
  | none => ⟨some data⟩

/-- Mirrors `Certificates::chain_data`, i.e. `state::Storage::try_get`. -/
def Certificates.chain_data (c : Certificates) : Option (List CertificateData) :=
  c.cell

/-- The `Connection` trait: the operations of a raw transport connection that
this layer calls. `peer_certificates` defaults to `none` as in the trait. -/
class Connection (C : Type) where
  peer_address : C → Option BindableAddr
  enable_nodelay : C → Except IoError Unit
  peer_certificates : C → Option Certificates := fun _ => none

/-- Mirrors `is_connection_error` in `Incoming::poll_accept_next`. -/
def is_connection_error (e : IoError) : Bool :=
  match e.kind with
  | .connectionRefused => true
  | .connectionAborted => true
  | .connectionReset => true
  | _ => false

/-- State of the `Incoming<L>` accept loop. The pinned `listener` field is
kept abstract; its successive `poll_accept` results are supplied to
`poll_accept_next` as a list. `pending_error_delay` stores the deadline of the
armed `Sleep`, if one is armed. -/
structure Incoming (L : Type) where
  sleep_on_errors : Option Nat
  nodelay : Bool
  pending_error_delay : Option Nat
  listener : L
deriving DecidableEq, Repr

/-- Mirrors `Incoming::new`. -/
def Incoming.new {L : Type} (listener : L) : Incoming L :=
  { listener := listener
    sleep_on_errors := some 250
    pending_error_delay := none
    nodelay := false }

/-- Polling a `tokio::time::Sleep` with the given deadline at instant `now`
returns `Pending` exactly while `now` is before the deadline; `none` means no
sleep is armed. -/
def sleepStillPending (now : Nat) : Option Nat → Bool
  | some deadline => now < deadline
  | none => false

/-- Mirrors `Incoming::poll_accept_next` at instant `now`. `inners` lists the
results the inner listener yields to the successive `poll_accept` calls this
poll makes; an exhausted list stands for an inner listener that would report
`Pending` next. Returns the poll result, the updated loop state, and how many
inner `poll_accept` calls were made. -/
def Incoming.poll_accept_next {L Conn : Type} (now : Nat) (st : Incoming L)
    (inners : List (Poll (Except IoError Conn))) :
    Poll (Except IoError Conn) × Incoming L × Nat :=
  -- Check if a previous sleep timer is active, set on I/O errors.
  if sleepStillPending now st.pending_error_delay then
    (.pending, st, 0)
  else
    match inners with
    | [] => (.pending, { st with pending_error_delay := none }, 0)
    | r :: rest =>
      let st1 : Incoming L := { st with pending_error_delay := none }
      match r with
      | .pending => (.pending, st1, 1)
      | .ready (.ok stream) =>
        -- The `enable_nodelay` attempt only logs on failure; the stream is
        -- returned either way.
        (.ready (.ok stream), st1, 1)
      | .ready (.error e) =>
        if is_connection_error e then
          let next := Incoming.poll_accept_next now st1 rest
          (next.1, next.2.1, next.2.2 + 1)
        else
          match st1.sleep_on_errors with
          | some duration =>
            -- We might be able to recover. Try again in a bit.
            let next := Incoming.poll_accept_next now
              { st1 with pending_error_delay := some (now + duration) } rest
            (next.1, next.2.1, next.2.2 + 1)
          | none => (.ready (.error e), st1, 1)

/-- Mirrors `<Incoming as Accept>::poll_accept`: `poll_accept_next` with the
ready value wrapped in `Some`. -/
def Incoming.accept_poll_accept {L Conn : Type} (now : Nat) (st : Incoming L)
    (inners : List (Poll (Except IoError Conn))) :
    Poll (Option (Except IoError Conn)) × Incoming L × Nat :=
  let r := Incoming.poll_accept_next now st inners
  (r.1.map some, r.2.1, r.2.2)

/-- Mirrors `tokio_rustls::server::TlsStream<C>` as observed through
`get_ref()`: the raw transport and the server session, of which this layer
only reads `peer_certificates()` (the chain the client presented during the
handshake, in protocol order, peer certificate first, or `none`). -/
structure BareTlsStream (C : Type) where
  raw : C
  session_peer_certificates : Option (List CertificateData)

/-- Mirrors `tokio_rustls::Accept<C>`, the in-progress handshake future, as
observed through `get_ref()`/`get_mut()`: the raw transport it still holds,
or `none` once a handshake failure has consumed it. The result its poll
eventually yields is supplied externally where it is needed. -/
structure HandshakeAccept (C : Type) where
  raw : Option C

/-- Mirrors `TlsAcceptor::accept`: a fresh handshake future still holding the
raw transport. The TLS configuration does not affect the modelled behavior. -/
def TlsAcceptor.accept {C : Type} (conn : C) : HandshakeAccept C :=
  { raw := some conn }

/-- Mirrors `TlsState<C>`. -/
inductive TlsState (C : Type) where
  | handshaking (accept : HandshakeAccept C)
  | streaming (stream : BareTlsStream C)

/-- Mirrors `TlsStream<C>`, the connection type of the TLS listener. -/
structure TlsStream (C : Type) where
  remote : Option BindableAddr
  state : TlsState C
  certs : Certificates

/-- Mirrors `<TlsListener as Listener>::poll_accept`, as a function of the
result the inner listener's `poll_accept` yields. Only the inner result
matters: the acceptor configuration plays no part in this step. -/
def TlsListener.poll_accept {C : Type} [Connection C]
    (inner : Poll (Except IoError C)) : Poll (Except IoError (TlsStream C)) :=
  match inner with
  | .pending => .pending
  | .ready (.ok conn) =>
    .ready (.ok
      { remote := Connection.peer_address conn
        state := .handshaking (TlsAcceptor.accept conn)
        -- These are empty and filled in after handshake is complete.
        certs := Certificates.default })
  | .ready (.error e) => .ready (.error e)

/-- Mirrors `<TlsStream as Connection>::peer_certificates`. -/
def TlsStream.peer_certificates {C : Type} (s : TlsStream C) : Option Certificates :=
  some s.certs

/-- Mirrors `<TlsStream as Connection>::peer_address`. -/
def TlsStream.peer_address {C : Type} (s : TlsStream C) : Option BindableAddr :=
  s.remote

/-- Mirrors `TlsStream::poll_accept_then`. `hr` is the result the handshake
future yields when polled (relevant only in the `Handshaking` state); `f` is
the operation to run on the established TLS stream. Returns the poll result
and the updated connection. The loop in the source re-enters the match after
a successful handshake and then takes the `Streaming` arm; that second
iteration is inlined here. -/
def TlsStream.poll_accept_then {C T : Type} (s : TlsStream C)
    (hr : Poll (Except IoError (BareTlsStream C)))
    (f : BareTlsStream C → Poll (Except IoError T)) :
    Poll (Except IoError T) × TlsStream C :=
  match s.state with
  | .handshaking _ =>
    match hr with
    | .pending => (.pending, s)
    | .ready (.ok stream) =>
      let certs :=
        match stream.session_peer_certificates with
        | some cert_chain => s.certs.set cert_chain
        | none => s.certs
      let s1 : TlsStream C := { s with certs := certs, state := .streaming stream }
      (f stream, s1)
    | .ready (.error e) => (.ready (.error e), s)
  | .streaming stream => (f stream, s)

/-- Mirrors `<TlsStream as AsyncWrite>::poll_flush`. `raw_poll_flush` and
`stream_poll_flush` stand for the flush operations of the raw transport and
of the established TLS stream. The handshake future is never polled here. -/
def TlsStream.poll_flush {C : Type} (s : TlsStream C)
    (raw_poll_flush : C → Poll (Except IoError Unit))
    (stream_poll_flush : BareTlsStream C → Poll (Except IoError Unit)) :
    Poll (Except IoError Unit) :=
  match s.state with
  | .handshaking accept =>
    match accept.raw with
    | some conn => raw_poll_flush conn
    | none => .ready (.ok ())
  | .streaming stream => stream_poll_flush stream

/-- Mirrors `<TlsStream as AsyncWrite>::poll_shutdown`, structured exactly
like `poll_flush`. -/
def TlsStream.poll_shutdown {C : Type} (s : TlsStream C)
    (raw_poll_shutdown : C → Poll (Except IoError Unit))
    (stream_poll_shutdown : BareTlsStream C → Poll (Except IoError Unit)) :
    Poll (Except IoError Unit) :=
  match s.state with
  | .handshaking accept =>
    match accept.raw with
    | some conn => raw_poll_shutdown conn
    | none => .ready (.ok ())
  | .streaming stream => stream_poll_shutdown stream

/-- Mirrors the ALPN configuration in `TlsListener::bind` (lines 106-109 of
`tls/listener.rs`): the list starts as `[http/1.1]` and, when the `http2`
feature is compiled in, `h2` is inserted at index 0. -/
def TlsListener.bind_alpn_protocols (http2 : Bool) : List String :=
  let base := ["http/1.1"]
  if http2 then List.insertIdx 0 "h2" base else base

/-- A concrete raw connection type used to evaluate the model on closed
inputs. -/
structure RawConn where
  addr : Option BindableAddr
deriving DecidableEq, Repr

instance : Connection RawConn where
  peer_address c := c.addr
  enable_nodelay _ := .ok ()

/-- A concrete raw connection. -/
def sampleConn : RawConn := { addr := some (.tcp "203.0.113.7:443") }

/-- A concrete two-certificate chain (abstract DER bytes). -/
def sampleChain : List CertificateData := [[48, 130, 1], [48, 130, 2]]

/-- A concrete established TLS stream whose session saw `sampleChain`. -/
def sampleBareStream : BareTlsStream RawConn :=
  { raw := sampleConn, session_peer_certificates := some sampleChain }

/-- A concrete TLS connection still in the `Handshaking` state, as
`TlsListener::poll_accept` produces it. -/
def sampleHandshaking : TlsStream RawConn :=
  { remote := sampleConn.addr
    state := .handshaking (TlsAcceptor.accept sampleConn)
    certs := Certificates.default }

/-- A concrete TLS connection whose handshake future no longer holds the raw
transport. -/
def sampleHandshakingConsumed : TlsStream RawConn :=
  { remote := sampleConn.addr
    state := .handshaking { raw := none }
    certs := Certificates.default }

/-- Helper: no armed sleep is never pending. -/
theorem sleepStillPending_none (t : Nat) : sleepStillPending t none = false := rfl

/-- Helper: an armed sleep is pending exactly while the instant is before its
deadline. -/
theorem sleepStillPending_some (t deadline : Nat) :
    sleepStillPending t (some deadline) = decide (t < deadline) := rfl

/-- Helper: while the armed delay is still pending, a poll of the accept loop
returns `Pending`, changes nothing, and makes no inner accept call. -/
theorem poll_accept_next_delay_pending {L Conn : Type} (t : Nat) (st : Incoming L)
    (inners : List (Poll (Except IoError Conn)))
    (h : sleepStillPending t st.pending_error_delay = true) :
    Incoming.poll_accept_next t st inners = (Poll.pending, st, 0) := by
  rw [Incoming.poll_accept_next.eq_def]
  simp [h]

/-- Helper: `Certificates.set` on an already-filled cell is the identity. -/
theorem Certificates.set_filled (v d : List CertificateData) :
    Certificates.set ⟨some v⟩ d = ⟨some v⟩ := rfl

/-- Helper: any sequence of later `set` calls leaves a filled cell unchanged. -/
theorem Certificates.foldl_set_filled (v : List CertificateData)
    (later : List (List CertificateData)) :
    later.foldl Certificates.set ⟨some v⟩ = ⟨some v⟩ := by
  induction later with
  | nil => rfl
  | cons d rest ih => simpa [List.foldl, Certificates.set] using ih

/-- C1: when the inner listener yields a ready raw connection, the TLS
listener's `poll_accept` is immediately ready (the handshake future is
constructed but never polled here), and the returned connection is in the
`Handshaking` state, carries the peer address read from the raw connection at
accept time, and carries a certificate store whose `chain_data` is still
`none`. -/
theorem tls_poll_accept_immediate {C : Type} [Connection C] (conn : C) :
    TlsListener.poll_accept (Poll.ready (Except.ok conn)) =
      Poll.ready (Except.ok
        { remote := Connection.peer_address conn
          state := TlsState.handshaking { raw := some conn }
          certs := Certificates.default })
    ∧ Certificates.chain_data Certificates.default = none :=
  ⟨rfl, rfl⟩

/-- C2: before any `set` the store's `chain_data` is `none`; after the first
`set chain` it is `some chain`, and it remains `some chain` after any further
sequence of `set` calls with arbitrary chains. -/
theorem certificates_fill_once (chain : List CertificateData)
    (later : List (List CertificateData)) :
    Certificates.chain_data Certificates.default = none
    ∧ Certificates.chain_data (Certificates.set Certificates.default chain) = some chain
    ∧ Certificates.chain_data
        (later.foldl Certificates.set (Certificates.set Certificates.default chain))
        = some chain := by
  refine ⟨rfl, rfl, ?_⟩
  have h : Certificates.set Certificates.default chain = ⟨some chain⟩ := rfl
  rw [h, Certificates.foldl_set_filled]
  rfl

/-- C3: when the inner listener yields a connection-scoped error and no armed
delay is blocking, the loop surfaces nothing, arms no delay timer, and
continues at once with the next inner accept within the same poll: the
outcome is that of running the loop on the remaining inner results with no
delay armed, with one more inner accept counted; and after processing just
that error the loop state holds no delay. -/
theorem accept_loop_connection_error_no_delay {L Conn : Type}
    (now : Nat) (st : Incoming L) (e : IoError)
    (rest : List (Poll (Except IoError Conn)))
    (hd : sleepStillPending now st.pending_error_delay = false)
    (he : is_connection_error e = true) :
    (Incoming.poll_accept_next now st (Poll.ready (Except.error e) :: rest) =
      ((Incoming.poll_accept_next now { st with pending_error_delay := none } rest).1,
       (Incoming.poll_accept_next now { st with pending_error_delay := none } rest).2.1,
       (Incoming.poll_accept_next now { st with pending_error_delay := none } rest).2.2 + 1))
    ∧ (Incoming.poll_accept_next now st
        [(Poll.ready (Except.error e) : Poll (Except IoError Conn))]).2.1.pending_error_delay
        = none := by
  constructor
  · rw [Incoming.poll_accept_next]
    simp [hd, he]
  · rw [Incoming.poll_accept_next]
    simp [hd, he, Incoming.poll_accept_next, sleepStillPending_none]

/-- C3 witness: a poll of a fresh accept loop whose inner listener yields one
connection-refused error. -/
theorem accept_loop_connection_error_no_delay_witness :
    sleepStillPending 0 (Incoming.new (0 : Nat)).pending_error_delay = false
    ∧ is_connection_error ⟨IoErrorKind.connectionRefused⟩ = true
    ∧ ((Incoming.poll_accept_next 0 (Incoming.new (0 : Nat))
          (Poll.ready (Except.error ⟨IoErrorKind.connectionRefused⟩)
            :: ([] : List (Poll (Except IoError Unit)))) =
        ((Incoming.poll_accept_next 0
            { Incoming.new (0 : Nat) with pending_error_delay := none }
            ([] : List (Poll (Except IoError Unit)))).1,
         (Incoming.poll_accept_next 0
            { Incoming.new (0 : Nat) with pending_error_delay := none }
            ([] : List (Poll (Except IoError Unit)))).2.1,
         (Incoming.poll_accept_next 0
            { Incoming.new (0 : Nat) with pending_error_delay := none }
            ([] : List (Poll (Except IoError Unit)))).2.2 + 1))
      ∧ (Incoming.poll_accept_next 0 (Incoming.new (0 : Nat))
          [(Poll.ready (Except.error ⟨IoErrorKind.connectionRefused⟩)
             : Poll (Except IoError Unit))]).2.1.pending_error_delay = none) :=
  ⟨by decide, by decide,
    accept_loop_connection_error_no_delay 0 (Incoming.new (0 : Nat))
      ⟨IoErrorKind.connectionRefused⟩ [] (by decide) (by decide)⟩

/-- C4: when the inner listener yields an error that is not connection-scoped
and no armed delay is blocking: with a configured backoff `d > 0` the loop
arms a delay with deadline `now + d`, returns `Pending` after exactly that
one inner accept; while the current instant is before an armed deadline every
poll returns `Pending` making zero inner accepts; and with no backoff
configured the error itself is returned after that one inner accept, the
remaining inner results untouched. -/
theorem accept_loop_other_error_backoff {L Conn : Type}
    (now : Nat) (st : Incoming L) (e : IoError)
    (rest : List (Poll (Except IoError Conn)))
    (hd : sleepStillPending now st.pending_error_delay = false)
    (he : is_connection_error e = false) :
    (∀ d, st.sleep_on_errors = some d → 0 < d →
      Incoming.poll_accept_next now st (Poll.ready (Except.error e) :: rest) =
        (Poll.pending, { st with pending_error_delay := some (now + d) }, 1))
    ∧ (∀ (deadline t : Nat) (inners : List (Poll (Except IoError Conn))),
        t < deadline →
        Incoming.poll_accept_next t { st with pending_error_delay := some deadline } inners =
          (Poll.pending, { st with pending_error_delay := some deadline }, 0))
    ∧ (st.sleep_on_errors = none →
      Incoming.poll_accept_next now st (Poll.ready (Except.error e) :: rest) =
        (Poll.ready (Except.error e), { st with pending_error_delay := none }, 1)) := by
  refine ⟨?_, ?_, ?_⟩
  · intro d hso hpos
    have hlt : now < now + d := Nat.lt_add_of_pos_right hpos
    rw [Incoming.poll_accept_next]
    simp [hd, he, hso, poll_accept_next_delay_pending, sleepStillPending_some, hlt]
  · intro deadline t inners hlt
    exact poll_accept_next_delay_pending t _ inners (by simp [sleepStillPending_some, hlt])
  · intro hso
    rw [Incoming.poll_accept_next]
    simp [hd, he, hso]

/-- C4 witness: a fresh accept loop (backoff 250ms) whose inner listener
yields one other-kind error at instant 0 arms a delay with deadline 250 and
returns pending after one inner accept. -/
theorem accept_loop_other_error_backoff_witness :
    sleepStillPending 0 (Incoming.new (0 : Nat)).pending_error_delay = false
    ∧ is_connection_error ⟨IoErrorKind.other 0⟩ = false
    ∧ (Incoming.new (0 : Nat)).sleep_on_errors = some 250
    ∧ 0 < 250
    ∧ Incoming.poll_accept_next 0 (Incoming.new (0 : Nat))
        (Poll.ready (Except.error ⟨IoErrorKind.other 0⟩)
          :: ([] : List (Poll (Except IoError Unit)))) =
        (Poll.pending, { Incoming.new (0 : Nat) with pending_error_delay := some (0 + 250) }, 1) :=
  ⟨by decide, by decide, rfl, by decide,
    (accept_loop_other_error_backoff 0 (Incoming.new (0 : Nat)) ⟨IoErrorKind.other 0⟩ []
      (by decide) (by decide)).1 250 rfl (by decide)⟩

/-- C5: the certificate accessor of a TLS connection returns `some` of its
store in every state; it is never `none`. -/
theorem tls_peer_certificates_always_some {C : Type} (s : TlsStream C) :
    TlsStream.peer_certificates s = some s.certs
    ∧ (TlsStream.peer_certificates s).isSome = true :=
  ⟨rfl, rfl⟩

/-- C6: for a connection in the `Handshaking` state, a read or write drives
the handshake: on success with a presented chain the store (empty since
accept time) is filled with that chain and the state becomes `Streaming`,
after which the operation runs on the TLS stream; on failure that error is
returned to the caller and the connection value is unchanged; and in the
`Streaming` state operations pass straight through to the TLS stream. -/
theorem tls_first_io_drives_handshake {C T : Type} (s : TlsStream C)
    (a : HandshakeAccept C) (f : BareTlsStream C → Poll (Except IoError T))
    (hs : s.state = TlsState.handshaking a) :
    (∀ (stream : BareTlsStream C) (chain : List CertificateData),
      stream.session_peer_certificates = some chain →
      s.certs = Certificates.default →
      TlsStream.poll_accept_then s (Poll.ready (Except.ok stream)) f =
        (f stream,
          { remote := s.remote
            state := TlsState.streaming stream
            certs := ⟨some chain⟩ }))
    ∧ (∀ (e : IoError),
        TlsStream.poll_accept_then s (Poll.ready (Except.error e)) f =
          (Poll.ready (Except.error e), s))
    ∧ (∀ (s2 : TlsStream C) (stream : BareTlsStream C)
        (hr : Poll (Except IoError (BareTlsStream C))),
        s2.state = TlsState.streaming stream →
        TlsStream.poll_accept_then s2 hr f = (f stream, s2)) := by
  refine ⟨?_, ?_, ?_⟩
  · intro stream chain hpc hcerts
    obtain ⟨remote, state, certs⟩ := s
    simp only at hs hcerts
    subst hs hcerts
    simp [TlsStream.poll_accept_then, hpc, Certificates.set, Certificates.default]
  · intro e
    obtain ⟨remote, state, certs⟩ := s
    simp only at hs
    subst hs
    simp [TlsStream.poll_accept_then]
  · intro s2 stream hr hs2
    obtain ⟨remote, state, certs⟩ := s2
    simp only at hs2
    subst hs2
    simp [TlsStream.poll_accept_then]

/-- C6 witness: a freshly accepted connection whose handshake succeeds with a
two-certificate chain fills the store with that chain, moves to `Streaming`,
and runs the requested operation on the TLS stream. -/
theorem tls_first_io_drives_handshake_witness :
    sampleHandshaking.state = TlsState.handshaking (TlsAcceptor.accept sampleConn)
    ∧ sampleBareStream.session_peer_certificates = some sampleChain
    ∧ sampleHandshaking.certs = Certificates.default
    ∧ TlsStream.poll_accept_then sampleHandshaking
        (Poll.ready (Except.ok sampleBareStream))
        (fun _ => Poll.ready (Except.ok ())) =
        (Poll.ready (Except.ok ()),
          { remote := sampleHandshaking.remote
            state := TlsState.streaming sampleBareStream
            certs := ⟨some sampleChain⟩ }) :=
  ⟨rfl, rfl, rfl,
    (tls_first_io_drives_handshake sampleHandshaking (TlsAcceptor.accept sampleConn)
        (fun _ => Poll.ready (Except.ok ())) rfl).1
      sampleBareStream sampleChain rfl rfl⟩

/-- C7: the configured ALPN protocol list is exactly `[h2, http/1.1]` when
HTTP/2 support is compiled in and exactly `[http/1.1]` otherwise. -/
theorem tls_alpn_protocols :
    TlsListener.bind_alpn_protocols true = ["h2", "http/1.1"]
    ∧ TlsListener.bind_alpn_protocols false = ["http/1.1"] := by
  constructor <;> rfl

/-- C8: the accept loop built by `Incoming::new` from any listener has a
backoff delay configured by default, equal to 250 milliseconds. -/
theorem incoming_default_backoff {L : Type} (listener : L) :
    (Incoming.new listener).sleep_on_errors = some 250 :=
  rfl

/-- C9: for a connection in the `Handshaking` state, flush and shutdown act
directly on the raw transport while the handshake future still holds it and
are immediate no-op successes once it does not; the handshake future itself
is never polled by these operations. -/
theorem tls_flush_shutdown_during_handshake {C : Type} (s : TlsStream C)
    (a : HandshakeAccept C)
    (raw_flush raw_shutdown : C → Poll (Except IoError Unit))
    (stream_flush stream_shutdown : BareTlsStream C → Poll (Except IoError Unit))
    (hs : s.state = TlsState.handshaking a) :
    (∀ conn, a.raw = some conn →
      TlsStream.poll_flush s raw_flush stream_flush = raw_flush conn
      ∧ TlsStream.poll_shutdown s raw_shutdown stream_shutdown = raw_shutdown conn)
    ∧ (a.raw = none →
      TlsStream.poll_flush s raw_flush stream_flush = Poll.ready (Except.ok ())
      ∧ TlsStream.poll_shutdown s raw_shutdown stream_shutdown = Poll.ready (Except.ok ())) := by
  obtain ⟨remote, state, certs⟩ := s
  simp only at hs
  subst hs
  refine ⟨?_, ?_⟩
  · intro conn hraw
    exact ⟨by simp [TlsStream.poll_flush, hraw], by simp [TlsStream.poll_shutdown, hraw]⟩
  · intro hraw
    exact ⟨by simp [TlsStream.poll_flush, hraw], by simp [TlsStream.poll_shutdown, hraw]⟩

/-- C9 witness: on a handshaking connection still holding the raw transport,
flush returns the raw transport's flush result and shutdown the raw
transport's shutdown result. -/
theorem tls_flush_shutdown_during_handshake_witness :
    sampleHandshaking.state = TlsState.handshaking (TlsAcceptor.accept sampleConn)
    ∧ (TlsAcceptor.accept sampleConn).raw = some sampleConn
    ∧ (TlsStream.poll_flush sampleHandshaking
          (fun _ => Poll.ready (Except.ok ())) (fun _ => Poll.pending) =
        Poll.ready (Except.ok ())
      ∧ TlsStream.poll_shutdown sampleHandshaking
          (fun _ => Poll.ready (Except.ok ())) (fun _ => Poll.pending) =
        Poll.ready (Except.ok ())) :=
  ⟨rfl, rfl,
    (tls_flush_shutdown_during_handshake sampleHandshaking (TlsAcceptor.accept sampleConn)
        (fun _ => Poll.ready (Except.ok ())) (fun _ => Poll.ready (Except.ok ()))
        (fun _ => Poll.pending) (fun _ => Poll.pending) rfl).1
      sampleConn rfl⟩

/-- C10: the stream-style `poll_accept` of the accept loop never yields a
ready `none` (end of stream): every ready result is `some`, an accepted
connection or a fatal error. -/
theorem accept_never_end_of_stream {L Conn : Type} (now : Nat) (st : Incoming L)
    (inners : List (Poll (Except IoError Conn))) :
    (Incoming.accept_poll_accept now st inners).1 ≠ Poll.ready none
    ∧ ∀ v, (Incoming.accept_poll_accept now st inners).1 = Poll.ready v →
        ∃ r, v = some r := by
  unfold Incoming.accept_poll_accept
  cases h : (Incoming.poll_accept_next now st inners).1 with
  | ready a => exact ⟨by simp [Poll.map, h], by simp [Poll.map, h]⟩
  | pending => exact ⟨by simp [Poll.map, h], by simp [Poll.map, h]⟩

/-- C10 witness: concrete evaluation on a fresh accept loop with an idle
inner listener. -/
theorem accept_never_end_of_stream_witness :
    (Incoming.accept_poll_accept 0 (Incoming.new (0 : Nat))
        ([] : List (Poll (Except IoError Unit)))).1 ≠ Poll.ready none :=
  (accept_never_end_of_stream 0 (Incoming.new (0 : Nat))
    ([] : List (Poll (Except IoError Unit)))).1

end RocketHttp
